import Mathlib

/-!
Shallow embedding of `why-is-node-running` (src/index.js).

The program tracks asynchronous resources via `async_hooks`: an `init`
callback records each created resource (unless its type is on an ignore
list) together with a captured stack trace and a weak reference to the
resource object, and a `destroy` callback removes it.  The exported
entry point `whyIsNodeRunning` disables the hook, filters the registry
down to records whose weak reference still dereferences and whose
resource reports itself as ref'd, and renders a report.

JavaScript values are modelled as follows:
* a `WeakRef` together with its `deref()` result at inspection time is
  an `Option ResourceObj` (`none` = collected);
* the optional `hasRef` method together with its possibly nullish
  return value is an `Option (Option Bool)` (`none` = the resource has
  no `hasRef` method; `some none` = calling it returns a nullish value;
  `some (some b)` = calling it returns the boolean `b`);
* `fileName` of a captured stack frame is `Option String` (`none` =
  the JS `null` that V8 reports for frames without a script name);
* external collaborators (`fileURLToPath`, `path.relative`,
  `process.cwd()`, `readFileSync`) are fields of an `Env` record;
  `readFileSync` is fallible, so it is `String → Option String`
  (`none` = the call throws);
* a logger accumulates the lines passed to `logger.error`, so the
  render functions return the `List String` of logged lines.
-/

/-- The dereferenced resource object, exposing at most a `hasRef`
liveness query (see module docstring for the `Option (Option Bool)`
encoding of `resource.hasRef?.()`). -/
structure ResourceObj where
  hasRef : Option (Option Bool)
deriving DecidableEq, Repr

/-- One captured V8 call-site: `{ fileName, lineNumber }` as produced by
`prepareStackTrace`.  `fileName` is `none` when V8 reports `null`. -/
structure StackFrame where
  fileName : Option String
  lineNumber : Int
deriving DecidableEq, Repr

/-- The value stored in the `asyncResources` map for one resource:
`{ type, resourceRef: new WeakRef(resource), stacks }`.  `resourceRef`
holds the result `deref()` will yield at inspection time. -/
structure ResourceRecord where
  type : String
  resourceRef : Option ResourceObj
  «stacks» : List StackFrame
deriving DecidableEq, Repr

/-- The `asyncResources` JS `Map`, as an insertion-ordered association
list with unique keys (JS `Map` iteration order). -/
abbrev Registry : Type := List (Nat × ResourceRecord)

/-- The `IGNORED_TYPES` list (src/index.js lines 6-11). -/
def IGNORED_TYPES : List String :=
  ["TIMERWRAP", "PROMISE", "PerformanceObserver", "RANDOMBYTESREQUEST"]

/-- JS `Map.prototype.set`: update in place when the key is present
(keeping its iteration position), otherwise append at the end. -/
def mapSet (m : Registry) (k : Nat) (v : ResourceRecord) : Registry :=
  match m with
  | [] => [(k, v)]
  | (k₁, v₁) :: rest =>
    if k₁ = k then (k, v) :: rest else (k₁, v₁) :: mapSet rest k v

/-- JS `Map.prototype.delete`: remove the entry with the given key if
present; a no-op otherwise. -/
def mapDelete (m : Registry) (k : Nat) : Registry :=
  m.filter (fun e => e.1 ≠ k)

/-- The keys of the registry in iteration order. -/
def mapKeys (m : Registry) : List Nat :=
  m.map Prod.fst

/-- The values of the registry in iteration order
(`Array.from(asyncResources.values())`). -/
def mapValues (m : Registry) : List ResourceRecord :=
  m.map Prod.snd

/-- The `init` hook callback (src/index.js lines 15-27) on the success
path of `captureStackTraces`: ignored types are not recorded; otherwise
the record is stored under `asyncId` with the captured stacks minus
their first frame (`captureStackTraces().slice(1)`).  `resource` is the
eventual `deref()` result of the `WeakRef` taken here. -/
def hookInit (m : Registry) (asyncId : Nat) (type : String)
    (resource : Option ResourceObj) (capturedStacks : List StackFrame) : Registry :=
  if IGNORED_TYPES.contains type then m
  else mapSet m asyncId
    { type := type, resourceRef := resource, «stacks» := capturedStacks.drop 1 }

/-- The `destroy` hook callback (src/index.js lines 28-30):
`asyncResources.delete(asyncId)`. -/
def hookDestroy (m : Registry) (asyncId : Nat) : Registry :=
  mapDelete m asyncId

/-- One lifecycle notification delivered by the host while the hook is
enabled. -/
inductive Event where
  | init (asyncId : Nat) (type : String) (resource : Option ResourceObj)
      (capturedStacks : List StackFrame)
  | destroy (asyncId : Nat)
deriving DecidableEq, Repr

/-- Replay a sequence of lifecycle notifications against an initially
empty registry, exactly as the two hook callbacks process them. -/
def replay (evs : List Event) : Registry :=
  evs.foldl
    (fun m e =>
      match e with
      | Event.init asyncId type resource capturedStacks =>
        hookInit m asyncId type resource capturedStacks
      | Event.destroy asyncId => hookDestroy m asyncId)
    []

/-- The liveness predicate of the `filter` callback in `whyIsNodeRunning`
(src/index.js lines 39-47): drop the record when `deref()` yields
`undefined`; otherwise keep it according to `resource.hasRef?.() ?? true`
(`true` when the method is absent or returns a nullish value). -/
def keepRecord (rec : ResourceRecord) : Bool :=
  match rec.resourceRef with
  | none => false
  | some resource =>
    match resource.hasRef with
    | none => true
    | some none => true
    | some (some b) => b

/-- The liveness filter applied to the snapshot of registry values
(src/index.js lines 38-47). -/
def filterActive (snapshot : List ResourceRecord) : List ResourceRecord :=
  snapshot.filter keepRecord

/-- The external collaborators consumed by the renderer:
`fileURLToPath` from `node:url`, `relative` from `node:path`,
`process.cwd()`, and `readFileSync` from `node:fs` (`none` = the read
throws, e.g. the file is missing or unreadable). -/
structure Env where
  fileURLToPath : String → String
  relative : String → String → String
  cwd : String
  readFile : String → Option String

/-- Embeds `normalizeFilePath` (src/index.js lines 99-101). -/
def normalizeFilePath (env : Env) (filePath : String) : String :=
  if filePath.startsWith "file://" then env.fileURLToPath filePath else filePath

/-- Embeds `formatFilePath` (src/index.js lines 92-97). -/
def formatFilePath (env : Env) (filePath : String) : String :=
  let absolutePath := normalizeFilePath env filePath
  let relativePath := env.relative env.cwd absolutePath
  if relativePath.startsWith ".." then absolutePath else relativePath

/-- Embeds `formatLocation` (src/index.js lines 87-90).  Only ever invoked on
frames that survived the `fileName !== null` filter, so the `none` case
is arbitrary (`""`). -/
def formatLocation (env : Env) (stack : StackFrame) : String :=
  let filePath := formatFilePath env (stack.fileName.getD "")
  filePath ++ ":" ++ toString stack.lineNumber

/-- Splits a character list the way `content.split(/\n|\r\n/)` does: at a `'\n'` the
first alternative splits; at a `'\r'` immediately followed by `'\n'`
the second alternative splits, consuming both characters. -/
def splitLinesAux : List Char → List (List Char)
  | [] => [[]]
  | '\n' :: rest => [] :: splitLinesAux rest
  | '\r' :: '\n' :: rest => [] :: splitLinesAux rest
  | c :: rest =>
    match splitLinesAux rest with
    | [] => [[c]]
    | l :: ls => (c :: l) :: ls

/-- Embeds `readFileSync(..., 'utf-8').split(/\n|\r\n/)` on a `String`. -/
def splitLines (s : String) : List String :=
  (splitLinesAux s.data).map String.mk

/-- JS array indexing `lines[i]` where `i` may be any integer: yields
the element for `0 ≤ i < length` and `undefined` (here `none`)
otherwise. -/
def jsIndex (lines : List String) (i : Int) : Option String :=
  if i < 0 then none else lines.get? i.toNat

/-- The `try` block of the per-frame loop (src/index.js lines 76-79):
read and split the file, take the 1-indexed line, `trim` it.  `none`
models every way the block can throw: a `null` file name (the loop never
feeds one, its frames are pre-filtered), a throwing `readFileSync`, or
an out-of-range line index making `lines[...]` `undefined` so that
`.trim()` raises a `TypeError`. -/
def tryReadLine (env : Env) (stack : StackFrame) : Option String :=
  match stack.fileName with
  | none => none
  | some fileName =>
    match env.readFile (normalizeFilePath env fileName) with
    | none => none
    | some content =>
      match jsIndex (splitLines content) (stack.lineNumber - 1) with
      | none => none
      | some line => some line.trim

/-- The padding string `' '.repeat(n)`. -/
def spaces (n : Nat) : String :=
  String.mk (List.replicate n ' ')

/-- Embeds `stacks.reduce((length, stack) => Math.max(length, formatLocation(stack).length), 0)`
(src/index.js line 70). -/
def maxLocationLength (env : Env) (stackList : List StackFrame) : Nat :=
  stackList.foldl (fun length stack => max length (formatLocation env stack).length) 0

/-- The body of the per-frame loop (src/index.js lines 72-84): the line
logged for one frame.  The `try/catch` is the `match` on `tryReadLine`:
on success the trimmed source line is appended after the padding and a
separator, on any failure only the padded location is logged. -/
def frameLine (env : Env) (maxLength : Nat) (stack : StackFrame) : String :=
  let location := formatLocation env stack
  let padding := spaces (maxLength - location.length)
  match tryReadLine env stack with
  | some line => location ++ padding ++ " - " ++ line
  | none => location ++ padding

/-- The frame filter of `printStacks` (src/index.js lines 57-60):
`fileName !== null && !fileName.startsWith('node:')`. -/
def keptFrame (stack : StackFrame) : Bool :=
  match stack.fileName with
  | none => false
  | some fileName => !fileName.startsWith "node:"

/-- Embeds `printStacks` (src/index.js lines 56-85) as the list of lines it
logs for one record.  `!stacks[0]` is the empty check: every element of
the filtered array is a frame object, hence truthy. -/
def printStacks (env : Env) (asyncResource : ResourceRecord) : List String :=
  let stackList := asyncResource.«stacks».filter keptFrame
  "" :: ("# " ++ asyncResource.type) ::
    match stackList with
    | [] => ["(unknown stack trace)"]
    | _ :: _ =>
      let maxLength := maxLocationLength env stackList
      stackList.map (frameLine env maxLength)

/-- The summary line logged first by `whyIsNodeRunning`
(src/index.js line 49). -/
def summaryLine (n : Nat) : String :=
  "There are " ++ toString n ++ " handle(s) keeping the process running."

/-- Embeds `whyIsNodeRunning` (src/index.js lines 35-54) as the list of lines
it logs: the hook is disabled (no further events mutate `registry`),
the registry values are snapshot and filtered, the summary line is
logged, then each active record's stack block in iteration order. -/
def whyIsNodeRunning (env : Env) (registry : Registry) : List String :=
  let activeAsyncResources := filterActive (mapValues registry)
  summaryLine activeAsyncResources.length ::
    activeAsyncResources.flatMap (printStacks env)

/-- A JS function value that may sit in `Error.prepareStackTrace`:
either this module's `prepareStackTrace` or some other party's
formatter. -/
inductive JsFormatter where
  | prepareStackTrace
  | other (id : Nat)
deriving DecidableEq, Repr

/-- Embeds `captureStackTraces` (src/index.js lines 111-122), threading the
mutable global `Error.prepareStackTrace` (`none` = JS `undefined`).
`captureFails` models the capture step raising (the spec's "the
formatting hook itself misbehaves"); `frames` is what V8 delivers when
it succeeds.  The code is straight-line with no `try/finally`: on the
failing path the exception propagates with the global still set to this
module's formatter (`Except.error` carries the global's value at the
point the exception escapes). -/
def captureStackTraces (captureFails : Bool) (frames : List StackFrame)
    (prepare : Option JsFormatter) :
    Except (Option JsFormatter) (List StackFrame × Option JsFormatter) :=
  let original := prepare
  let prepare := some JsFormatter.prepareStackTrace
  if captureFails then Except.error prepare
  else
    let capturedTraces := frames
    let prepare := original
    Except.ok (capturedTraces, prepare)

/-- The `init` hook callback with the fallibility of
`captureStackTraces` made explicit: the call on line 20 of src/index.js
is not wrapped in any `try/catch`, so when capture raises
(`captureFails = true` and the type is not ignored) the exception
propagates out of the callback (`Except.error ()`). -/
def hookInitE (m : Registry) (asyncId : Nat) (type : String)
    (resource : Option ResourceObj) (captureFails : Bool)
    (frames : List StackFrame) : Except Unit Registry :=
  if IGNORED_TYPES.contains type then Except.ok m
  else
    match (if captureFails then Except.error () else Except.ok frames :
        Except Unit (List StackFrame)) with
    | Except.error e => Except.error e
    | Except.ok capturedStacks =>
      Except.ok (mapSet m asyncId
        { type := type, resourceRef := resource, «stacks» := capturedStacks.drop 1 })

/-- The operation `specInsertKey ks k` adds `k` at the end of the key list unless it
is already present: the key-set effect of `Map.prototype.set`. -/
def specInsertKey (ks : List Nat) (k : Nat) : List Nat :=
  if k ∈ ks then ks else ks ++ [k]

/-- Spec-side reference for the registry key set, following the spec's
words: the ids created-but-not-destroyed so far, where a notification
whose type tag is on the ignore list leaves the set unchanged and a
destroy removes the id (a no-op when absent). -/
def createdNotDestroyedKeys (evs : List Event) : List Nat :=
  evs.foldl
    (fun ks e =>
      match e with
      | Event.init asyncId type _ _ =>
        if IGNORED_TYPES.contains type then ks else specInsertKey ks asyncId
      | Event.destroy asyncId => ks.filter (fun k => k ≠ asyncId))
    []

/-- A concrete environment whose file reads always throw. -/
def envNoFS : Env :=
  { fileURLToPath := fun s => s
    relative := fun _ p => p
    cwd := "/"
    readFile := fun _ => none }

/-- A concrete user-code frame. -/
def frameApp : StackFrame :=
  { fileName := some "/app/server.js", lineNumber := 2 }

/-- A concrete record whose resource exposes no `hasRef` capability. -/
def recNoHasRef : ResourceRecord :=
  { type := "Socket", resourceRef := some { hasRef := none }, «stacks» := [] }

/-- A concrete record whose resource's `hasRef()` returns a nullish
value. -/
def recNullishHasRef : ResourceRecord :=
  { type := "Timeout", resourceRef := some { hasRef := some none }, «stacks» := [] }

/-- A concrete record all of whose frames have a `null` file name, so
the display filter drops every one of them. -/
def recNullFrames : ResourceRecord :=
  { type := "TCPWRAP", resourceRef := some { hasRef := none }
    «stacks» := [{ fileName := none, lineNumber := 10 },
      { fileName := none, lineNumber := 5 }] }

/-- A concrete record stored for an init notification of type
`"Timeout"` with no captured frames. -/
def recTimeout : ResourceRecord :=
  { type := "Timeout", resourceRef := some { hasRef := none }, «stacks» := [] }

/-- A concrete record stored for an init notification of type
`"TCPWRAP"` with no captured frames. -/
def recTCPWRAP : ResourceRecord :=
  { type := "TCPWRAP", resourceRef := some { hasRef := some none }, «stacks» := [] }

/-- A concrete record stored for an init notification of type
`"FSREQCALLBACK"` with no captured frames. -/
def recFSReq : ResourceRecord :=
  { type := "FSREQCALLBACK", resourceRef := some { hasRef := some (some true) }
    «stacks» := [] }

section HelperLemmas

theorem keepRecord_iff (rec : ResourceRecord) :
    keepRecord rec = true ↔
      ∃ obj, rec.resourceRef = some obj ∧
        (obj.hasRef = none ∨ obj.hasRef = some none ∨ obj.hasRef = some (some true)) := by
  obtain ⟨type, ref, st⟩ := rec
  cases ref with
  | none => simp [keepRecord]
  | some obj =>
    obtain ⟨hr⟩ := obj
    match hr with
    | none => simp [keepRecord]
    | some none => simp [keepRecord]
    | some (some b) => cases b <;> simp [keepRecord]

theorem keptFrame_iff (stack : StackFrame) :
    keptFrame stack = true ↔
      stack.fileName ≠ none ∧
        ∀ f, stack.fileName = some f → f.startsWith "node:" = false := by
  obtain ⟨fn, ln⟩ := stack
  cases fn with
  | none => simp [keptFrame]
  | some f => simp [keptFrame]

theorem spaces_length (n : Nat) : (spaces n).length = n := by
  simp [spaces, String.length]

theorem mapKeys_mapSet (m : Registry) (k : Nat) (v : ResourceRecord) :
    mapKeys (mapSet m k v) = specInsertKey (mapKeys m) k := by
  induction m with
  | nil => simp [mapSet, mapKeys, specInsertKey]
  | cons e rest ih =>
    obtain ⟨k₁, v₁⟩ := e
    by_cases h : k₁ = k
    · subst h
      simp [mapSet, mapKeys, specInsertKey]
    · simp only [mapSet, if_neg h, mapKeys, List.map_cons]
      rw [show (mapSet rest k v).map Prod.fst = mapKeys (mapSet rest k v) from rfl, ih]
      simp only [specInsertKey, mapKeys, List.mem_cons]
      by_cases hk : k ∈ rest.map Prod.fst
      · simp [hk, Ne.symm h]
      · simp [hk, Ne.symm h]

theorem mapKeys_mapDelete (m : Registry) (k : Nat) :
    mapKeys (mapDelete m k) = (mapKeys m).filter (fun x => x ≠ k) := by
  induction m with
  | nil => simp [mapDelete, mapKeys]
  | cons e rest ih =>
    obtain ⟨k₁, v₁⟩ := e
    by_cases h : k₁ = k
    · subst h
      simpa [mapDelete, mapKeys] using ih
    · simpa [mapDelete, mapKeys, h] using ih

theorem foldl_max_le_init (f : StackFrame → Nat) (l : List StackFrame) :
    ∀ a : Nat, a ≤ l.foldl (fun n y => max n (f y)) a := by
  induction l with
  | nil => intro a; exact Nat.le_refl a
  | cons b t ih =>
    intro a
    exact Nat.le_trans (Nat.le_max_left a (f b)) (ih (max a (f b)))

theorem foldl_max_le_mem (f : StackFrame → Nat) (l : List StackFrame)
    (x : StackFrame) (hx : x ∈ l) :
    ∀ a : Nat, f x ≤ l.foldl (fun n y => max n (f y)) a := by
  induction l with
  | nil => cases hx
  | cons b t ih =>
    intro a
    rw [List.foldl_cons]
    rcases List.mem_cons.mp hx with h | h
    · subst h
      exact Nat.le_trans (Nat.le_max_right a (f x)) (foldl_max_le_init f t _)
    · exact ih h (max a (f b))

theorem foldl_max_attained (f : StackFrame → Nat) (l : List StackFrame) :
    ∀ a : Nat,
      l.foldl (fun n y => max n (f y)) a = a ∨
        ∃ x ∈ l, l.foldl (fun n y => max n (f y)) a = f x := by
  induction l with
  | nil => intro a; exact Or.inl rfl
  | cons b t ih =>
    intro a
    rcases ih (max a (f b)) with h | ⟨x, hx, h⟩
    · rcases max_choice a (f b) with hm | hm
      · exact Or.inl (by rw [List.foldl_cons, h, hm])
      · exact Or.inr ⟨b, List.mem_cons_self b t, by rw [List.foldl_cons, h, hm]⟩
    · exact Or.inr ⟨x, List.mem_cons_of_mem b hx, by rw [List.foldl_cons, h]⟩

theorem le_maxLocationLength (env : Env) (stackList : List StackFrame)
    (stack : StackFrame) (hs : stack ∈ stackList) :
    (formatLocation env stack).length ≤ maxLocationLength env stackList :=
  foldl_max_le_mem (fun s => (formatLocation env s).length) stackList stack hs 0

theorem maxLocationLength_attained (env : Env) (stackList : List StackFrame)
    (hne : stackList ≠ []) :
    ∃ x ∈ stackList,
      (formatLocation env x).length = maxLocationLength env stackList := by
  rcases foldl_max_attained (fun s => (formatLocation env s).length) stackList 0 with h | h
  · obtain ⟨b, t, rfl⟩ := List.exists_cons_of_ne_nil hne
    have hb := le_maxLocationLength env (b :: t) b (List.mem_cons_self b t)
    have h0 : maxLocationLength env (b :: t) = 0 := h
    exact ⟨b, List.mem_cons_self b t, by omega⟩
  · obtain ⟨x, hx, h⟩ := h
    exact ⟨x, hx, h.symm⟩

theorem mapKeys_foldl_replay (evs : List Event) :
    ∀ m : Registry,
      mapKeys (List.foldl
        (fun m e =>
          match e with
          | Event.init asyncId type resource capturedStacks =>
            hookInit m asyncId type resource capturedStacks
          | Event.destroy asyncId => hookDestroy m asyncId)
        m evs) =
      List.foldl
        (fun ks e =>
          match e with
          | Event.init asyncId type _ _ =>
            if IGNORED_TYPES.contains type then ks else specInsertKey ks asyncId
          | Event.destroy asyncId => ks.filter (fun k => k ≠ asyncId))
        (mapKeys m) evs := by
  induction evs with
  | nil => intro m; rfl
  | cons e rest ih =>
    intro m
    cases e with
    | init asyncId type resource capturedStacks =>
      simp only [List.foldl_cons]
      rw [ih]
      by_cases h : type ∈ IGNORED_TYPES
      · simp [hookInit, h]
      · simp [hookInit, h, mapKeys_mapSet]
    | destroy asyncId =>
      simp only [List.foldl_cons]
      rw [ih]
      simp [hookDestroy, mapKeys_mapDelete]

end HelperLemmas

/-- C1: the liveness filter keeps a record iff its weak reference still
dereferences to a live object and the resource reports itself as ref'd,
where "reports itself as ref'd" is: `hasRef` is absent, or returns a
nullish value, or returns `true`.  In particular a record whose
reference resolves but whose `hasRef()` returns `false` is excluded,
and a record whose resource has no `hasRef` at all is included. -/
theorem liveness_filter_keeps_iff_resolved_and_refd
    (s : List ResourceRecord) (rec : ResourceRecord) :
    rec ∈ filterActive s ↔
      rec ∈ s ∧ ∃ obj, rec.resourceRef = some obj ∧
        (obj.hasRef = none ∨ obj.hasRef = some none ∨ obj.hasRef = some (some true)) := by
  rw [filterActive, List.mem_filter, keepRecord_iff]

/-- Witness for C1 at concrete records: a record with no `hasRef` is
kept by the filter. -/
theorem liveness_filter_keeps_iff_resolved_and_refd_witness :
    recNoHasRef ∈ filterActive [recNoHasRef] :=
  (liveness_filter_keeps_iff_resolved_and_refd _ _).mpr
    ⟨by simp, { hasRef := none }, rfl, Or.inl rfl⟩

/-- C9: liveness filtering is idempotent on a fixed snapshot. -/
theorem liveness_filter_idempotent (s : List ResourceRecord) :
    filterActive (filterActive s) = filterActive s := by
  induction s with
  | nil => rfl
  | cons rec t ih =>
    by_cases h : keepRecord rec <;>
      simp [filterActive, List.filter_cons, h, ih]

/-- C10: a resource whose `hasRef` query returns a nullish value is
treated as ref'd by `?? true` and kept by the liveness filter, exactly
like a resource with no `hasRef` capability. -/
theorem nullish_hasRef_treated_as_refd
    (s : List ResourceRecord) (rec : ResourceRecord) (obj : ResourceObj)
    (href : rec.resourceRef = some obj) (hnull : obj.hasRef = some none)
    (hmem : rec ∈ s) :
    keepRecord rec = true ∧ rec ∈ filterActive s := by
  have hk : keepRecord rec = true := by
    simp [keepRecord, href, hnull]
  exact ⟨hk, List.mem_filter.mpr ⟨hmem, hk⟩⟩

/-- Witness for C10: a concrete record whose `hasRef()` returns a
nullish value is kept. -/
theorem nullish_hasRef_treated_as_refd_witness :
    keepRecord recNullishHasRef = true ∧
      recNullishHasRef ∈ filterActive [recNullishHasRef] :=
  nullish_hasRef_treated_as_refd _ _ { hasRef := some none } rfl rfl (by simp)

/-- C3 (code bug): `captureStackTraces` has no `try/finally`, so when
the capture step raises, the exception escapes with
`Error.prepareStackTrace` still set to this module's formatter instead
of the previous value `some (JsFormatter.other 0)`. -/
theorem captureStackTraces_no_restore_on_failure :
    captureStackTraces true [] (some (JsFormatter.other 0)) =
      Except.error (some JsFormatter.prepareStackTrace) ∧
    some JsFormatter.prepareStackTrace ≠ some (JsFormatter.other 0) :=
  ⟨rfl, by decide⟩

/-- C8 (code bug): the `init` callback does not wrap
`captureStackTraces()` in a `try/catch`, so when capture raises during
a creation notification for a non-ignored type, the exception
propagates out of the callback. -/
theorem hookInit_raises_on_capture_failure :
    hookInitE [] 1 "Timeout" (some { hasRef := none }) true [] =
      Except.error () :=
  rfl

/-- C6: when reading the source file throws or the 1-indexed line is
out of range, the rendered frame line is exactly the padded
`path:line` location with no `" - <source line>"` suffix; rendering
itself is total, the failure is absorbed by the `try/catch`. -/
theorem frame_read_failure_omits_excerpt
    (env : Env) (maxLength : Nat) (stack : StackFrame) (fileName : String)
    (hf : stack.fileName = some fileName)
    (hfail : env.readFile (normalizeFilePath env fileName) = none ∨
      ∀ content, env.readFile (normalizeFilePath env fileName) = some content →
        jsIndex (splitLines content) (stack.lineNumber - 1) = none) :
    frameLine env maxLength stack =
      formatLocation env stack ++
        spaces (maxLength - (formatLocation env stack).length) := by
  have hnone : tryReadLine env stack = none := by
    simp only [tryReadLine, hf]
    cases hrf : env.readFile (normalizeFilePath env fileName) with
    | none => rfl
    | some content =>
      rcases hfail with h | h
      · exact absurd hrf (by simp [h])
      · simp [h content hrf]
  simp only [frameLine, hnone]

/-- Witness for C6: with an environment whose reads always throw, the
frame line for a concrete frame is the bare padded location. -/
theorem frame_read_failure_omits_excerpt_witness :
    frameLine envNoFS 20 frameApp =
      formatLocation envNoFS frameApp ++
        spaces (20 - (formatLocation envNoFS frameApp).length) :=
  frame_read_failure_omits_excerpt envNoFS 20 frameApp "/app/server.js" rfl (Or.inl rfl)

/-- C7: within one record's block, every formatted location, after
right-padding with `' '.repeat(maxLength - location.length)`, has
length `maxLength`, and `maxLength` is attained by some retained frame
of the block (it is the longest formatted location). -/
theorem padded_locations_uniform_width
    (env : Env) (stackList : List StackFrame) (stack : StackFrame)
    (hmem : stack ∈ stackList) :
    (formatLocation env stack ++
        spaces (maxLocationLength env stackList -
          (formatLocation env stack).length)).length
      = maxLocationLength env stackList ∧
    ∃ longest ∈ stackList,
      (formatLocation env longest).length = maxLocationLength env stackList := by
  constructor
  · rw [String.length_append, spaces_length]
    exact Nat.add_sub_cancel' (le_maxLocationLength env stackList stack hmem)
  · exact maxLocationLength_attained env stackList (List.ne_nil_of_mem hmem)

/-- Witness for C7 at a concrete singleton block. -/
theorem padded_locations_uniform_width_witness :
    (formatLocation envNoFS frameApp ++
        spaces (maxLocationLength envNoFS [frameApp] -
          (formatLocation envNoFS frameApp).length)).length
      = maxLocationLength envNoFS [frameApp] ∧
    ∃ longest ∈ [frameApp],
      (formatLocation envNoFS longest).length = maxLocationLength envNoFS [frameApp] :=
  padded_locations_uniform_width envNoFS [frameApp] frameApp (by simp)

/-- C2: replaying any sequence of create/destroy notifications, the
registry's key list equals the spec-side created-but-not-destroyed
non-ignored key list; moreover an init whose type is ignored leaves the
registry entirely unchanged, and a destroy for an absent id is a
no-op. -/
theorem registry_keys_track_created_not_destroyed :
    (∀ evs : List Event, mapKeys (replay evs) = createdNotDestroyedKeys evs) ∧
    (∀ (m : Registry) (asyncId : Nat) (type : String)
      (resource : Option ResourceObj) (capturedStacks : List StackFrame),
      IGNORED_TYPES.contains type = true →
        hookInit m asyncId type resource capturedStacks = m) ∧
    (∀ (m : Registry) (asyncId : Nat),
      asyncId ∉ mapKeys m → hookDestroy m asyncId = m) := by
  refine ⟨fun evs => mapKeys_foldl_replay evs [], ?_, ?_⟩
  · intro m asyncId type resource capturedStacks h
    unfold hookInit
    rw [if_pos h]
  · intro m asyncId h
    rw [hookDestroy, mapDelete]
    refine List.filter_eq_self.mpr ?_
    intro e he
    have hk : e.1 ∈ mapKeys m := List.mem_map_of_mem Prod.fst he
    exact decide_eq_true (fun hEq => h (hEq ▸ hk))

/-- Witness for C2: an ignored-type init and an absent-id destroy both
leave the empty registry empty. -/
theorem registry_keys_track_created_not_destroyed_witness :
    hookInit [] 9 "TIMERWRAP" none [] = [] ∧ hookDestroy [] 9 = [] :=
  ⟨registry_keys_track_created_not_destroyed.2.1 [] 9 "TIMERWRAP" none [] (by decide),
    registry_keys_track_created_not_destroyed.2.2 [] 9 (by simp [mapKeys])⟩

/-- C4: frames with a `null` file name or a `node:`-prefixed file name
are dropped; when no frames survive, the record's block is exactly the
blank line, the type header, and the fixed `"(unknown stack trace)"`
line, with no per-frame lines; otherwise the block is the header
followed by one line per retained frame. -/
theorem frames_dropped_and_unknown_stack_line (env : Env) (rec : ResourceRecord) :
    (rec.«stacks».filter keptFrame = [] →
      printStacks env rec = ["", "# " ++ rec.type, "(unknown stack trace)"]) ∧
    (rec.«stacks».filter keptFrame ≠ [] →
      printStacks env rec =
        "" :: ("# " ++ rec.type) ::
          (rec.«stacks».filter keptFrame).map
            (frameLine env (maxLocationLength env (rec.«stacks».filter keptFrame)))) ∧
    (∀ stack : StackFrame,
      stack ∈ rec.«stacks».filter keptFrame ↔
        stack ∈ rec.«stacks» ∧ stack.fileName ≠ none ∧
          ∀ f, stack.fileName = some f → f.startsWith "node:" = false) := by
  refine ⟨?_, ?_, ?_⟩
  · intro h
    simp [printStacks, h]
  · intro h
    obtain ⟨x, xs, hx⟩ := List.exists_cons_of_ne_nil h
    simp only [printStacks]
    rw [hx]
  · intro stack
    rw [List.mem_filter, keptFrame_iff]

/-- Witness for C4: a record whose frames all have a `null` file name
renders as the fixed unknown-stack-trace block. -/
theorem frames_dropped_and_unknown_stack_line_witness :
    printStacks envNoFS recNullFrames = ["", "# TCPWRAP", "(unknown stack trace)"] :=
  (frames_dropped_and_unknown_stack_line envNoFS recNullFrames).1 (by rfl)

/-- C5: one inspection logs first the summary line with the count of
filtered-active records, then one block per active record in registry
insertion order; in particular for three records created in order
`a`, `b`, `c` (none destroyed, none ignored, all passing the liveness
filter) the report is the summary followed by `a`'s block, `b`'s
block, `c`'s block. -/
theorem report_summary_first_and_insertion_order :
    (∀ (env : Env) (registry : Registry),
      whyIsNodeRunning env registry =
        summaryLine (filterActive (mapValues registry)).length ::
          (filterActive (mapValues registry)).flatMap (printStacks env)) ∧
    (∀ (env : Env) (a b c : Nat) (ta tb tc : String)
      (ra rb rc : Option ResourceObj) (sa sb sc : List StackFrame),
      a ≠ b → a ≠ c → b ≠ c →
      IGNORED_TYPES.contains ta = false →
      IGNORED_TYPES.contains tb = false →
      IGNORED_TYPES.contains tc = false →
      keepRecord { type := ta, resourceRef := ra, «stacks» := sa.drop 1 } = true →
      keepRecord { type := tb, resourceRef := rb, «stacks» := sb.drop 1 } = true →
      keepRecord { type := tc, resourceRef := rc, «stacks» := sc.drop 1 } = true →
      whyIsNodeRunning env
          (replay [Event.init a ta ra sa, Event.init b tb rb sb,
            Event.init c tc rc sc]) =
        summaryLine 3 ::
          (printStacks env { type := ta, resourceRef := ra, «stacks» := sa.drop 1 } ++
            printStacks env { type := tb, resourceRef := rb, «stacks» := sb.drop 1 } ++
            printStacks env { type := tc, resourceRef := rc, «stacks» := sc.drop 1 })) := by
  constructor
  · intro env registry
    rfl
  · intro env a b c ta tb tc ra rb rc sa sb sc hab hac hbc hta htb htc hka hkb hkc
    have hta' : ta ∉ IGNORED_TYPES := by simpa using hta
    have htb' : tb ∉ IGNORED_TYPES := by simpa using htb
    have htc' : tc ∉ IGNORED_TYPES := by simpa using htc
    simp only [List.drop_one] at hka hkb hkc
    simp [replay, hookInit, hta', htb', htc', mapSet, hab, hac, hbc,
      whyIsNodeRunning, mapValues, filterActive, hka, hkb, hkc, List.filter_cons]

/-- Witness for C5 at three concrete creations. -/
theorem report_summary_first_and_insertion_order_witness :
    whyIsNodeRunning envNoFS
        (replay [Event.init 1 "Timeout" (some { hasRef := none }) [],
          Event.init 2 "TCPWRAP" (some { hasRef := some none }) [],
          Event.init 3 "FSREQCALLBACK" (some { hasRef := some (some true) }) []]) =
      summaryLine 3 ::
        (printStacks envNoFS recTimeout ++ printStacks envNoFS recTCPWRAP ++
          printStacks envNoFS recFSReq) :=
  report_summary_first_and_insertion_order.2 envNoFS 1 2 3
    "Timeout" "TCPWRAP" "FSREQCALLBACK"
    (some { hasRef := none }) (some { hasRef := some none })
    (some { hasRef := some (some true) }) [] [] []
    (by decide) (by decide) (by decide) (by decide) (by decide) (by decide)
    rfl rfl rfl
